import Mathlib

/-!
Verification of the season-comparison engine of the BallDontLie NBA client
(`nba_api/client.py`). The definitions below are a shallow embedding of the
Python code: JSON numbers are modelled as rationals, per-game stat records as
structures of optional JSON values, and the aggregation / growth / comparison
logic is translated statement by statement from `compare_player_seasons` and
`get_player_seasons`.
-/

set_option autoImplicit false

namespace NbaApi

/-- A JSON value that can occur in a stat-record field: `null`, a number, or a
string. Numbers are modelled as rationals. -/
inductive PyVal where
  | vnull : PyVal
  | vnum (q : ℚ) : PyVal
  | vstr (s : String) : PyVal
deriving DecidableEq

/-- Split a character list at every occurrence of the separator, the way
Python `str.split(sep)` does for a one-character separator: `""` gives
`[""]`, `":"` gives `["", ""]`, and so on. -/
def splitChar (sep : Char) : List Char → List (List Char)
  | [] => [[]]
  | c :: cs =>
      let r := splitChar sep cs
      if c = sep then [] :: r
      else
        match r with
        | [] => [[c]]
        | h :: t => (c :: h) :: t

/-- Strip leading and trailing whitespace, as Python number conversion does
before parsing. -/
def trimChars (l : List Char) : List Char :=
  ((l.dropWhile Char.isWhitespace).reverse.dropWhile Char.isWhitespace).reverse

/-- The numeric value of a non-empty all-digit character list; `none`
otherwise. -/
def parseNatToken (l : List Char) : Option Nat :=
  if l.isEmpty then none
  else if l.all Char.isDigit then
    some (l.foldl (fun n c => n * 10 + (c.toNat - 48)) 0)
  else none

/-- Sign handling of Python `int`: an optional leading `-` or `+` followed by
digits. -/
def parseSignedNat (l : List Char) : Option Int :=
  match l with
  | '-' :: rest => (parseNatToken rest).map (fun n => -(n : Int))
  | '+' :: rest => (parseNatToken rest).map (fun n => (n : Int))
  | _ => (parseNatToken l).map (fun n => (n : Int))

/-- Python `int(s)` on a string: strips surrounding whitespace, accepts an
optional sign followed by decimal digits; anything else raises `ValueError`
(modelled as `none`). -/
def parsePyInt (s : String) : Option Int :=
  parseSignedNat (trimChars s.data)

/-- Unsigned decimal-number body for Python `float`: digits with at most one
decimal point and at least one digit overall. -/
def parseDecimalBody (l : List Char) : Option ℚ :=
  match splitChar '.' l with
  | [ip] => (parseNatToken ip).map (fun n => (n : ℚ))
  | [ip, fp] =>
      if ip.isEmpty && fp.isEmpty then none
      else
        match (if ip.isEmpty then some 0 else parseNatToken ip),
              (if fp.isEmpty then some 0 else parseNatToken fp) with
        | some i, some f =>
            some ((i : ℚ) + (f : ℚ) / (10 : ℚ) ^ fp.length)
        | _, _ => none
  | _ => none

/-- Python `float(s)` on a plain decimal string: strips whitespace, accepts an
optional sign and digits with at most one decimal point (at least one digit
overall); anything else raises `ValueError` (modelled as `none`). Exponent
notation and `inf`/`nan`, which never occur in this data, are not modelled. -/
def parsePyFloat (s : String) : Option ℚ :=
  match trimChars s.data with
  | '-' :: rest => (parseDecimalBody rest).map (fun q => -q)
  | '+' :: rest => parseDecimalBody rest
  | l => parseDecimalBody l

/-- Decoding of the `min` field of one game record (client.py lines 401-413).
`game.get("min", "0:0")`: an absent field becomes `"0:0"`, i.e. 0 minutes.
A present value that is not a string (null or a number) raises `TypeError`
at `":" in min_str`, which the code catches and turns into an invalid game
(`none`). A string with exactly one `:` decodes as `int(mm) + int(ss)/60`;
a string with no `:` decodes as `float(s)`; a string with two or more `:`
raises `ValueError` at tuple unpacking. -/
def parseMin (v : Option PyVal) : Option ℚ :=
  match v with
  | none => some 0
  | some PyVal.vnull => none
  | some (PyVal.vnum _) => none
  | some (PyVal.vstr s) =>
      match splitChar ':' s.data with
      | [_] => parsePyFloat s
      | [m, sec] =>
          match parseSignedNat (trimChars m), parseSignedNat (trimChars sec) with
          | some mi, some se => some ((mi : ℚ) + (se : ℚ) / 60)
          | _, _ => none
      | _ => none

/-- Decoding of one of the nine plain numeric fields (client.py lines 414-422).
`value = game.get(key, 0)`: an absent field defaults to `0`; a present `null`
is skipped (adds nothing, stays valid); a number is added as is; a string goes
through `float(value)` and an unparsable string raises `ValueError`, which the
code catches and turns into an invalid game (`none`). -/
def parseNumField (v : Option PyVal) : Option ℚ :=
  match v with
  | none => some 0
  | some PyVal.vnull => some 0
  | some (PyVal.vnum q) => some q
  | some (PyVal.vstr s) => parsePyFloat s

/-- The statistic fields accumulated per game, in the iteration order of the
Python `totals` dict (the `games_played` key is skipped by a `continue`). -/
inductive Field where
  | pts | reb | ast | stl | blk | turnover | fg_pct | fg3_pct | ft_pct | min
deriving DecidableEq

/-- One raw per-game stat record: each field either absent (`none`) or present
with a JSON value. -/
structure GameStat where
  pts : Option PyVal := none
  reb : Option PyVal := none
  ast : Option PyVal := none
  stl : Option PyVal := none
  blk : Option PyVal := none
  turnover : Option PyVal := none
  fg_pct : Option PyVal := none
  fg3_pct : Option PyVal := none
  ft_pct : Option PyVal := none
  min : Option PyVal := none
deriving DecidableEq

/-- Field accessor for `GameStat`, indexed by `Field`. -/
def GameStat.field (g : GameStat) : Field → Option PyVal
  | .pts => g.pts
  | .reb => g.reb
  | .ast => g.ast
  | .stl => g.stl
  | .blk => g.blk
  | .turnover => g.turnover
  | .fg_pct => g.fg_pct
  | .fg3_pct => g.fg3_pct
  | .ft_pct => g.ft_pct
  | .min => g.min

/-- The amount one game adds to the running total of one field, or `none` if
the field fails to parse for that game. -/
def fieldContribution (g : GameStat) (f : Field) : Option ℚ :=
  match f with
  | .min => parseMin (g.field .min)
  | f => parseNumField (g.field f)

/-- Running totals across the games of one season (the `totals` dict minus
its constant `games_played` entry). -/
structure Totals where
  pts : ℚ
  reb : ℚ
  ast : ℚ
  stl : ℚ
  blk : ℚ
  turnover : ℚ
  fg_pct : ℚ
  fg3_pct : ℚ
  ft_pct : ℚ
  min : ℚ
deriving DecidableEq

/-- The all-zero totals the season loop starts from. -/
def Totals.zero : Totals :=
  ⟨0, 0, 0, 0, 0, 0, 0, 0, 0, 0⟩

/-- Add `v` to the component of the totals named by `f`. -/
def Totals.add (t : Totals) (f : Field) (v : ℚ) : Totals :=
  match f with
  | .pts => { t with pts := t.pts + v }
  | .reb => { t with reb := t.reb + v }
  | .ast => { t with ast := t.ast + v }
  | .stl => { t with stl := t.stl + v }
  | .blk => { t with blk := t.blk + v }
  | .turnover => { t with turnover := t.turnover + v }
  | .fg_pct => { t with fg_pct := t.fg_pct + v }
  | .fg3_pct => { t with fg3_pct := t.fg3_pct + v }
  | .ft_pct => { t with ft_pct := t.ft_pct + v }
  | .min => { t with min := t.min + v }

/-- Iteration order of `for key in totals.keys()` in the per-game loop
(Python dict insertion order; `games_played` is skipped by `continue`). -/
def fieldOrder : List Field :=
  [.pts, .reb, .ast, .stl, .blk, .turnover, .fg_pct, .fg3_pct, .ft_pct, .min]

/-- Process the fields of one game in order, adding each parsed contribution
to the totals and stopping at the first parse failure (`break` in the Python
loop). Contributions added before the failure are NOT rolled back. Returns
the updated totals and whether the game was valid. -/
def processFields (g : GameStat) : List Field → Totals → Totals × Bool
  | [], t => (t, true)
  | f :: fs, t =>
      match fieldContribution g f with
      | none => (t, false)
      | some v => processFields g fs (t.add f v)

/-- Process one game record (the body of `for game in stats`, lines 395-425). -/
def processGame (t : Totals) (g : GameStat) : Totals × Bool :=
  processFields g fieldOrder t

/-- One step of the season fold: update totals and bump the valid-game count
when the game was valid. -/
def aggStep (acc : Totals × Nat) (g : GameStat) : Totals × Nat :=
  let r := processGame acc.1 g
  (r.1, if r.2 then acc.2 + 1 else acc.2)

/-- The totals accumulated over a whole season's records. -/
def seasonTotals (records : List GameStat) : Totals :=
  (records.foldl aggStep (Totals.zero, 0)).1

/-- The number of records of the season for which every field parsed. -/
def validCount (records : List GameStat) : Nat :=
  (records.foldl aggStep (Totals.zero, 0)).2

/-- Per-season averaged statistics (the `averages` dict): each accumulated
total divided by the valid-game count, plus `games_played` set to the total
record count. -/
structure Averages where
  pts : ℚ
  reb : ℚ
  ast : ℚ
  stl : ℚ
  blk : ℚ
  turnover : ℚ
  fg_pct : ℚ
  fg3_pct : ℚ
  ft_pct : ℚ
  min : ℚ
  games_played : Nat
deriving DecidableEq

/-- Season aggregation (client.py lines 376-433): `None` when the record list
is empty or no record is fully valid, otherwise totals divided by the
valid-game count with `games_played = len(records)`. -/
def aggregate (records : List GameStat) : Option Averages :=
  if records.isEmpty then none
  else if validCount records = 0 then none
  else
    some
      { pts := (seasonTotals records).pts / validCount records
        reb := (seasonTotals records).reb / validCount records
        ast := (seasonTotals records).ast / validCount records
        stl := (seasonTotals records).stl / validCount records
        blk := (seasonTotals records).blk / validCount records
        turnover := (seasonTotals records).turnover / validCount records
        fg_pct := (seasonTotals records).fg_pct / validCount records
        fg3_pct := (seasonTotals records).fg3_pct / validCount records
        ft_pct := (seasonTotals records).ft_pct / validCount records
        min := (seasonTotals records).min / validCount records
        games_played := records.length }

/-! ### Python dict operations

Assignment `d[k] = v` overwrites in place when the key exists (keeping its
position) and appends otherwise; `d.get(k)` looks the key up. All dicts built
by the code have unique keys, so a first-match lookup is exact. -/

/-- Python dict lookup `d.get(k)` on an association list with unique keys. -/
def dictGet {κ α : Type} [DecidableEq κ] (m : List (κ × α)) (k : κ) : Option α :=
  (m.find? (fun p => p.1 = k)).map (fun p => p.2)

/-- Python dict assignment `d[k] = v`: overwrite in place if the key exists,
append otherwise. -/
def dictInsert {κ α : Type} [DecidableEq κ] (m : List (κ × α)) (k : κ) (v : α) :
    List (κ × α) :=
  if (m.find? (fun p => p.1 = k)).isSome then
    m.map (fun p => if p.1 = k then (k, v) else p)
  else m ++ [(k, v)]

/-! ### Growth calculator (client.py lines 438-467) -/

/-- The `averages` dict of a season, viewed through string keys as the Python
code reads it back (`prev_stats.get(metric, 0)`). Every key the aggregation
writes is present with a numeric value. -/
def Averages.lookup (a : Averages) (m : String) : Option ℚ :=
  if m = "pts" then some a.pts
  else if m = "reb" then some a.reb
  else if m = "ast" then some a.ast
  else if m = "stl" then some a.stl
  else if m = "blk" then some a.blk
  else if m = "turnover" then some a.turnover
  else if m = "fg_pct" then some a.fg_pct
  else if m = "fg3_pct" then some a.fg3_pct
  else if m = "ft_pct" then some a.ft_pct
  else if m = "min" then some a.min
  else if m = "games_played" then some (a.games_played : ℚ)
  else none

/-- `stats.get(metric, 0)` on an averages dict. -/
def avgGet (a : Averages) (m : String) : ℚ :=
  (a.lookup m).getD 0

/-- Python `round(x, 1)`: round `10*x` half-to-even, divide by 10. The Python
implementation rounds the decimal rendering of a binary float; on the exact
rationals of this model that is round-half-to-even of `10*x`. -/
def pyRound1 (q : ℚ) : ℚ :=
  let n : ℚ := q * 10
  let f : ℤ := ⌊n⌋
  let r : ℚ := n - f
  (if r < 1/2 then (f : ℚ)
   else if 1/2 < r then (f : ℚ) + 1
   else if f % 2 = 0 then (f : ℚ) else (f : ℚ) + 1) / 10

/-- The fixed metric list `key_metrics` of the growth loop (line 440):
`turnover`, `min` and `games_played` are excluded. -/
def keyMetrics : List String :=
  ["pts", "reb", "ast", "stl", "blk", "fg_pct", "fg3_pct", "ft_pct"]

/-- Growth of one metric between two non-null season averages (lines 455-464).
On an averages dict every metric is present with a numeric value, so the
guard `prev_value and prev_value != 0` reduces to `prev_value != 0`. -/
def growthEntry (prev curr : Averages) (m : String) : Option ℚ :=
  if avgGet prev m = 0 then none
  else some (pyRound1 ((avgGet curr m - avgGet prev m) / |avgGet prev m| * 100))

/-- The `season_growth` dict for one adjacent pair of non-null averages. -/
def seasonGrowthOf (prev curr : Averages) : List (String × Option ℚ) :=
  keyMetrics.map (fun m => (m, growthEntry prev curr m))

/-- The same per-metric growth computation on a raw Python dict whose values
may also be `null` or strings, exactly as lines 455-464 execute on arbitrary
dicts. The outer `none` is an uncaught `TypeError` (arithmetic on a non
numeric value); `some none` is the stored `None` produced by the
division-by-zero guard `prev_value and prev_value != 0` (a missing key
defaults to `0`, and `None`, `0` and `""` are all falsy). -/
def growthValueRaw (prev curr : List (String × PyVal)) (m : String) :
    Option (Option ℚ) :=
  match (dictGet prev m).getD (PyVal.vnum 0) with
  | PyVal.vnull => some none
  | PyVal.vstr s => if s = "" then some none else none
  | PyVal.vnum p =>
      if p = 0 then some none
      else
        match (dictGet curr m).getD (PyVal.vnum 0) with
        | PyVal.vnum c => some (some (pyRound1 ((c - p) / |p| * 100)))
        | _ => none

/-- The growth dict key `f"{prev_season}-{curr_season}"`. -/
def growthKey (p c : Int) : String :=
  toString p ++ "-" ++ toString c

/-- One iteration of the growth loop (lines 442-467): skip the pair if either
adjacent season's averages are null, otherwise store the pair's per-metric
growth under its key. -/
def growthStep (avg : Int → Option Averages)
    (acc : List (String × List (String × Option ℚ))) (pc : Int × Int) :
    List (String × List (String × Option ℚ)) :=
  match avg pc.1, avg pc.2 with
  | some p, some c => dictInsert acc (growthKey pc.1 pc.2) (seasonGrowthOf p c)
  | _, _ => acc

/-- The growth dict of the comparison (lines 438-467): for each pair of
seasons adjacent in the caller-supplied list, if both seasons' averages are
non-null, store their per-metric growth under `"{prev}-{curr}"`; otherwise
skip the pair entirely. -/
def buildGrowth (seasons : List Int) (avg : Int → Option Averages) :
    List (String × List (String × Option ℚ)) :=
  (seasons.zip seasons.tail).foldl (growthStep avg) []

/-! ### Data source adapter and comparison orchestrator -/

/-- The player identity the adapter resolves (`get_player`). -/
structure Player where
  id : Int
  first_name : String
  last_name : String
  team_full_name : Option String
deriving DecidableEq

/-- The data-source adapter the orchestrator calls through: `get_player` and
`get_player_stats(player_id, season)`, either of which can fail with an
upstream error (`PlayerNotFound`, `ApiKeyError`, `ApiRateLimitError`,
`RequestException`), modelled by an arbitrary error type `ε`. -/
structure Adapter (ε : Type) where
  getPlayer : Except ε Player
  getStats : Int → Except ε (List GameStat)

/-- The errors `compare_player_seasons` can signal: its own validation error
(`InvalidParameterError`) or an upstream error re-raised unchanged. -/
inductive CompareError (ε : Type) where
  | invalidParameter (msg : String) : CompareError ε
  | upstream (e : ε) : CompareError ε
deriving DecidableEq

/-- The player block of the final result (lines 470-475). -/
structure PlayerOut where
  id : Int
  name : String
  team : Option String
deriving DecidableEq

/-- The dictionary returned by `compare_player_seasons` (lines 470-480). -/
structure ComparisonResult where
  player : PlayerOut
  seasons : List Int
  season_averages : List (String × Option Averages)
  growth : List (String × List (String × Option ℚ))
  metrics : List String
deriving DecidableEq

/-- The per-season fetch-and-aggregate loop (lines 372-433): for each season
in the given order, fetch that season's stats (propagating any fetch error)
and store the aggregated averages (or `None`) in the `season_averages_raw`
dict. -/
def fetchSeasonAverages {ε : Type} (A : Adapter ε)
    (acc : List (Int × Option Averages)) :
    List Int → Except ε (List (Int × Option Averages))
  | [] => .ok acc
  | s :: rest =>
      match A.getStats s with
      | .error e => .error e
      | .ok stats => fetchSeasonAverages A (dictInsert acc s (aggregate stats)) rest

/-- `compare_player_seasons` (client.py lines 321-490): validation, player
fetch, per-season aggregation, growth computation, result assembly. -/
def compare {ε : Type} (A : Adapter ε) (currentYear : Int) (player_id : Int)
    (seasons : List Int) : Except (CompareError ε) ComparisonResult :=
  if player_id ≤ 0 then
    .error (.invalidParameter "Invalid player ID. Must be a positive integer.")
  else if seasons.isEmpty then
    .error (.invalidParameter "Seasons must be a non-empty list of integers")
  else if seasons.any (fun s => s < 1946 || currentYear < s) then
    .error (.invalidParameter "Invalid season. Must be between 1946 and the current year.")
  else
    match A.getPlayer with
    | .error e => .error (.upstream e)
    | .ok player =>
        match fetchSeasonAverages A [] seasons with
        | .error e => .error (.upstream e)
        | .ok raw =>
            let avg := fun s => (dictGet raw s).getD none
            .ok
              { player :=
                  { id := player.id
                    name := player.first_name ++ " " ++ player.last_name
                    team := player.team_full_name }
                seasons := seasons
                season_averages := raw.map (fun p => (toString p.1, p.2))
                growth := buildGrowth seasons avg
                metrics := keyMetrics }

/-! ### get_player_seasons (client.py lines 301-319) -/

/-- The `game` sub-object of one raw stat entry. -/
structure GameInfo where
  season : Option Int
deriving DecidableEq

/-- One raw stat entry as returned by the stats endpoint: it may or may not
carry a `game` object, which may or may not carry a `season`. -/
structure StatEntry where
  game : Option GameInfo
deriving DecidableEq

/-- `get_player_seasons`: scan every stat entry, collect the distinct
`stat["game"]["season"]` values into a set, and return them as a sorted
list (`sorted(list(seasons))`). -/
def get_player_seasons (data : List StatEntry) : List Int :=
  ((data.filterMap (fun st => st.game.bind (fun gi => gi.season))).toFinset).sort (· ≤ ·)

/-! ### Derived notions and concrete inputs used in the statements below -/

/-- The totals obtained by adding the contributions of the fields in `l` of
one game, in order (each `totals[key] += ...` line that actually executed). -/
def addAll (g : GameStat) (l : List Field) (t : Totals) : Totals :=
  l.foldl (fun t f => t.add f ((fieldContribution g f).getD 0)) t

/-- A fully valid game record: 10 points, 30 minutes, everything else absent. -/
def gValid : GameStat :=
  { pts := some (PyVal.vnum 10), min := some (PyVal.vstr "30:00") }

/-- A record whose `min` field fails to parse: its nine numeric fields are
processed (and added to the totals) before the failure is discovered. -/
def gBadMin : GameStat :=
  { pts := some (PyVal.vnum 100), min := some (PyVal.vstr "abc") }

/-- The averages of the one-record season `[gValid]`. -/
def avgOfGValid : Averages :=
  ⟨10, 0, 0, 0, 0, 0, 0, 0, 0, 30, 1⟩

/-- A concrete player for instantiating the orchestrator. -/
def playerEx : Player :=
  { id := 7, first_name := "Jo", last_name := "Doe", team_full_name := none }

/-- An adapter whose every fetch succeeds with no records. -/
def adapterEmpty : Adapter Unit :=
  { getPlayer := Except.ok playerEx, getStats := fun _ => Except.ok [] }

/-- An adapter whose stats fetches all fail. -/
def adapterStatsFail : Adapter Unit :=
  { getPlayer := Except.ok playerEx, getStats := fun _ => Except.error () }

/-- A record whose `min` field is present but null. -/
def gMinNull : GameStat :=
  { min := some PyVal.vnull }

/-- A record whose `pts` field is present but null. -/
def gPtsNull : GameStat :=
  { pts := some PyVal.vnull }

/-- A record with every field absent. -/
def gEmpty : GameStat := {}

/-- What `aggregate [gValid, gBadMin]` actually returns: the invalid record's
100 points were added to the totals before its `min` parse failed, so the
averaged `pts` is `(10 + 100) / 1 = 110`, outside the valid record's range. -/
def avgPolluted : Averages :=
  ⟨110, 0, 0, 0, 0, 0, 0, 0, 0, 30, 2⟩

/-! ### Lemmas about the per-record field loop -/

/-- A game is valid exactly when every field in the processed list parses. -/
theorem processFields_valid_iff (g : GameStat) (l : List Field) (t : Totals) :
    (processFields g l t).2 = true ↔ ∀ f ∈ l, (fieldContribution g f).isSome := by
  induction l generalizing t with
  | nil => simp [processFields]
  | cons f fs ih =>
      cases h : fieldContribution g f with
      | none => simp [processFields, h, List.forall_mem_cons]
      | some v => simp [processFields, h, List.forall_mem_cons, ih]

/-- When every field parses, the loop adds every contribution and reports the
game valid. -/
theorem processFields_of_all_some (g : GameStat) : ∀ (l : List Field) (t : Totals),
    (∀ f ∈ l, (fieldContribution g f).isSome) →
    processFields g l t = (addAll g l t, true) := by
  intro l
  induction l with
  | nil => intro t _; rfl
  | cons f fs ih =>
      intro t h
      cases hv : fieldContribution g f with
      | none => exact absurd (h f (List.mem_cons_self f fs)) (by simp [hv])
      | some v =>
          simp only [processFields, hv, addAll, List.foldl_cons, Option.getD_some]
          exact ih (t.add f v) (fun x hx => h x (List.mem_cons_of_mem f hx))

/-- When the fields in `l1` parse and `f` does not, the loop adds exactly the
contributions of `l1`, leaves everything from `f` on untouched, and reports
the game invalid: the `break` does not roll back earlier additions. -/
theorem processFields_append_fail (g : GameStat) :
    ∀ (l1 : List Field) (f : Field) (l2 : List Field) (t : Totals),
    (∀ x ∈ l1, (fieldContribution g x).isSome) → fieldContribution g f = none →
    processFields g (l1 ++ f :: l2) t = (addAll g l1 t, false) := by
  intro l1
  induction l1 with
  | nil => intro f l2 t _ hf; simp [processFields, hf, addAll]
  | cons x xs ih =>
      intro f l2 t h hf
      cases hv : fieldContribution g x with
      | none => exact absurd (h x (List.mem_cons_self x xs)) (by simp [hv])
      | some v =>
          simp only [List.cons_append, processFields, hv, addAll, List.foldl_cons,
            Option.getD_some]
          exact ih f l2 (t.add x v) (fun y hy => h y (List.mem_cons_of_mem x hy)) hf

/-- A single unparsable field among the processed ones makes the whole game
invalid. -/
theorem processGame_invalid_of_none (t : Totals) (g : GameStat) (f : Field)
    (hm : f ∈ fieldOrder) (h : fieldContribution g f = none) :
    (processGame t g).2 = false := by
  cases hb : (processGame t g).2 with
  | false => rfl
  | true =>
      have hall := (processFields_valid_iff g fieldOrder t).mp hb f hm
      simp [h] at hall

/-- For every field other than `min`, the contribution goes through the
plain-number decoding. -/
theorem fieldContribution_ne_min (g : GameStat) (f : Field) (h : f ≠ Field.min) :
    fieldContribution g f = parseNumField (g.field f) := by
  cases f <;> first | rfl | exact absurd rfl h

/-! ### Claim theorems about minutes decoding and numeric-field decoding -/

/-- C6: minutes are decoded per record as follows: a string with a single `:`
splits into a whole-minutes and a seconds component and decodes to
`minutes + seconds/60`; a string without `:` decodes as a plain decimal
number; a failing minutes parse (non-numeric components) makes the whole
record invalid. -/
theorem minutes_decoding_rule :
    (∀ (s : String) (m sec : List Char) (mi se : Int),
        splitChar ':' s.data = [m, sec] →
        parseSignedNat (trimChars m) = some mi →
        parseSignedNat (trimChars sec) = some se →
        parseMin (some (PyVal.vstr s)) = some ((mi : ℚ) + (se : ℚ) / 60))
    ∧ (∀ (s : String) (x : List Char), splitChar ':' s.data = [x] →
        parseMin (some (PyVal.vstr s)) = parsePyFloat s)
    ∧ (∀ (t : Totals) (g : GameStat) (s : String), g.min = some (PyVal.vstr s) →
        parseMin (some (PyVal.vstr s)) = none → (processGame t g).2 = false) := by
  refine ⟨?_, ?_, ?_⟩
  · intro s m sec mi se hsplit hm hs
    simp [parseMin, hsplit, hm, hs]
  · intro s x hsplit
    simp [parseMin, hsplit]
  · intro t g s hg hnone
    apply processGame_invalid_of_none t g Field.min (by simp [fieldOrder])
    simpa [fieldContribution, GameStat.field, hg] using hnone

/-- Witness for C6 at the spec's concrete inputs: `"34:30"` decodes to 34.5
minutes, `"34"` to 34.0, and a record with `min = "abc"` is invalid. -/
theorem minutes_decoding_rule_witness :
    parseMin (some (PyVal.vstr "34:30")) = some (69/2)
    ∧ parseMin (some (PyVal.vstr "34")) = some 34
    ∧ (processGame Totals.zero gBadMin).2 = false := by
  obtain ⟨h1, h2, h3⟩ := minutes_decoding_rule
  refine ⟨?_, ?_, ?_⟩
  · have h := h1 "34:30" ['3', '4'] ['3', '0'] 34 30 (by decide) (by decide) (by decide)
    rw [h]; norm_num
  · have h := h2 "34" ['3', '4'] (by decide)
    rw [h]
    norm_num +decide [parsePyFloat, parseDecimalBody, splitChar, trimChars, parseNatToken]
  · exact h3 Totals.zero gBadMin "abc" rfl (by decide)

/-- C8: an absent numeric field defaults to 0 and never by itself invalidates
a record; a numeric-field parse failure happens exactly when the field is
present with a string that does not parse as a number. -/
theorem numeric_field_rule :
    (∀ (g : GameStat) (f : Field), f ≠ Field.min → g.field f = none →
        fieldContribution g f = some 0)
    ∧ (∀ (t : Totals) (g : GameStat) (f : Field), f ≠ Field.min → g.field f = none →
        (processGame t g).2 = false →
        ∃ f2, f2 ≠ f ∧ f2 ∈ fieldOrder ∧ fieldContribution g f2 = none)
    ∧ (∀ (g : GameStat) (f : Field), f ≠ Field.min →
        (fieldContribution g f = none ↔
          ∃ s, g.field f = some (PyVal.vstr s) ∧ parsePyFloat s = none)) := by
  have ha : ∀ (g : GameStat) (f : Field), f ≠ Field.min → g.field f = none →
      fieldContribution g f = some 0 := by
    intro g f hne hv
    rw [fieldContribution_ne_min g f hne, hv]
    rfl
  refine ⟨ha, ?_, ?_⟩
  · intro t g f hne hv hinvalid
    have hnall : ¬ ∀ x ∈ fieldOrder, (fieldContribution g x).isSome := by
      intro hall
      have hvalid : (processGame t g).2 = true :=
        (processFields_valid_iff g fieldOrder t).mpr hall
      rw [hinvalid] at hvalid
      exact Bool.false_ne_true hvalid
    push_neg at hnall
    obtain ⟨f2, hf2mem, hf2⟩ := hnall
    refine ⟨f2, ?_, hf2mem, Option.not_isSome_iff_eq_none.mp hf2⟩
    intro heq
    rw [heq, ha g f hne hv] at hf2
    exact hf2 rfl
  · intro g f hne
    rw [fieldContribution_ne_min g f hne]
    cases hv : g.field f with
    | none => simp [parseNumField]
    | some v =>
        cases v with
        | vnull => simp [parseNumField]
        | vnum q => simp [parseNumField]
        | vstr s => simp [parseNumField]

/-- Witness for C8: an absent `reb` contributes 0; a record whose only present
field is a null `min` is invalid because of a field other than the absent
`pts`; a present numeric `pts` never counts as a parse failure. -/
theorem numeric_field_rule_witness :
    fieldContribution gValid Field.reb = some 0
    ∧ (∃ f2, f2 ≠ Field.pts ∧ f2 ∈ fieldOrder ∧ fieldContribution gMinNull f2 = none)
    ∧ (fieldContribution gBadMin Field.pts = none ↔
        ∃ s, gBadMin.field Field.pts = some (PyVal.vstr s) ∧ parsePyFloat s = none) := by
  obtain ⟨ha, hb, hc⟩ := numeric_field_rule
  exact ⟨ha gValid Field.reb (by decide) rfl,
    hb Totals.zero gMinNull Field.pts (by decide) rfl (by decide),
    hc gBadMin Field.pts (by decide)⟩

/-- C10: null handling of `min` is asymmetric with the numeric fields: a
present-null `min` invalidates the whole record, a present-null numeric field
contributes 0 and keeps the record valid, and an absent `min` contributes 0
minutes through the `"0:0"` default. -/
theorem min_null_asymmetry :
    (∀ (t : Totals) (g : GameStat), g.min = some PyVal.vnull →
        (processGame t g).2 = false)
    ∧ (∀ (g : GameStat) (f : Field), f ≠ Field.min → g.field f = some PyVal.vnull →
        fieldContribution g f = some 0)
    ∧ (∀ g : GameStat, g.min = none → fieldContribution g Field.min = some 0) := by
  refine ⟨?_, ?_, ?_⟩
  · intro t g hg
    apply processGame_invalid_of_none t g Field.min (by simp [fieldOrder])
    simp [fieldContribution, GameStat.field, hg, parseMin]
  · intro g f hne hv
    rw [fieldContribution_ne_min g f hne, hv]
    rfl
  · intro g hg
    simp [fieldContribution, GameStat.field, hg, parseMin]

/-- Witness for C10 at concrete records: null `min` invalidates, null `pts`
contributes 0, absent `min` contributes 0. -/
theorem min_null_asymmetry_witness :
    (processGame Totals.zero gMinNull).2 = false
    ∧ fieldContribution gPtsNull Field.pts = some 0
    ∧ fieldContribution gEmpty Field.min = some 0 := by
  obtain ⟨ha, hb, hc⟩ := min_null_asymmetry
  exact ⟨ha Totals.zero gMinNull rfl, hb gPtsNull Field.pts (by decide) rfl,
    hc gEmpty rfl⟩

/-! ### Concrete evaluations of the aggregation -/

/-- Decoding the valid record's minutes string. -/
theorem parseMin_thirty : parseMin (some (PyVal.vstr "30:00")) = some 30 := by
  have e1 : splitChar ':' "30:00".data = [['3', '0'], ['0', '0']] := by decide
  have e2 : parseSignedNat (trimChars ['3', '0']) = some 30 := by decide
  have e3 : parseSignedNat (trimChars ['0', '0']) = some 0 := by decide
  have e4 : ((30 : Int) : ℚ) + ((0 : Int) : ℚ) / 60 = 30 := by norm_num
  simp [parseMin, e1, e2, e3, e4]

/-- The one-record season `[gValid]` aggregates to 10 points and 30 minutes
per game. -/
theorem aggregate_gValid_eval : aggregate [gValid] = some avgOfGValid := by
  simp [aggregate, validCount, seasonTotals, aggStep, processGame, processFields,
    fieldOrder, fieldContribution, GameStat.field, gValid, parseNumField,
    parseMin_thirty, Totals.add, Totals.zero, avgOfGValid, Averages.mk.injEq]

/-- Aggregating `[gValid, gBadMin]`: the second record's `min` fails to parse,
so it is excluded from the valid count, but its 100 points were already added
to the totals, giving an average of 110 points per "valid" game. -/
theorem aggregate_pair_eval : aggregate [gValid, gBadMin] = some avgPolluted := by
  have habc : parseMin (some (PyVal.vstr "abc")) = none := by decide
  simp [aggregate, validCount, seasonTotals, aggStep, processGame, processFields,
    fieldOrder, fieldContribution, GameStat.field, gValid, gBadMin, parseNumField,
    parseMin_thirty, habc, Totals.add, Totals.zero, avgPolluted, Averages.mk.injEq]
  norm_num

/-! ### Claim theorems about the season aggregation -/

/-- C1 counterexample: in `[gValid, gBadMin]` the only valid record has 10
points, yet the reported `pts` average is 110 — the record whose `min` failed
to parse contributed its 100 points to the accumulated total, so an averaged
field is NOT always within the range of the valid records' values. -/
theorem aggregate_range_violation_cex :
    aggregate [gValid, gBadMin] = some avgPolluted
    ∧ (processGame Totals.zero gValid).2 = true
    ∧ (processGame Totals.zero gBadMin).2 = false
    ∧ gValid.pts = some (PyVal.vnum 10)
    ∧ avgPolluted.pts = 110
    ∧ ¬((110 : ℚ) ≤ 10) := by
  exact ⟨aggregate_pair_eval, by decide, by decide, rfl, rfl, by norm_num⟩

/-- C1 (amended): a record whose field at some position in the processing
order fails to parse still counts toward `games_played` and is excluded from
the valid-game denominator, but every field processed before the failing one
has already been added to the accumulated totals and stays there. -/
theorem invalid_record_retains_earlier_fields :
    (∀ (t : Totals) (g : GameStat) (l1 : List Field) (f : Field) (l2 : List Field),
        fieldOrder = l1 ++ f :: l2 →
        (∀ x ∈ l1, (fieldContribution g x).isSome) →
        fieldContribution g f = none →
        processGame t g = (addAll g l1 t, false))
    ∧ (∀ (rs : List GameStat) (a : Averages), aggregate rs = some a →
        a.games_played = rs.length) := by
  constructor
  · intro t g l1 f l2 horder hsome hf
    unfold processGame
    rw [horder]
    exact processFields_append_fail g l1 f l2 t hsome hf
  · intro rs a ha
    unfold aggregate at ha
    split at ha
    · simp at ha
    · split at ha
      · simp at ha
      · have h := Option.some.inj ha
        subst h
        rfl

/-- Witness for the amended C1: `gBadMin` fails at `min`, the last field in
the order, so all nine numeric fields were added; and a valid one-record
season reports `games_played = 1`. -/
theorem invalid_record_retains_earlier_fields_witness :
    processGame Totals.zero gBadMin =
      (addAll gBadMin [Field.pts, Field.reb, Field.ast, Field.stl, Field.blk,
        Field.turnover, Field.fg_pct, Field.fg3_pct, Field.ft_pct] Totals.zero, false)
    ∧ avgOfGValid.games_played = [gValid].length := by
  obtain ⟨h1, h2⟩ := invalid_record_retains_earlier_fields
  refine ⟨?_, h2 [gValid] avgOfGValid aggregate_gValid_eval⟩
  exact h1 Totals.zero gBadMin
    [Field.pts, Field.reb, Field.ast, Field.stl, Field.blk,
      Field.turnover, Field.fg_pct, Field.fg3_pct, Field.ft_pct]
    Field.min [] rfl (by decide) (by decide)

/-- C2: aggregation returns null exactly when the record list is empty or no
record is valid; otherwise every averaged field is the accumulated total
divided by the valid-record count, and `games_played` is the total record
count (not the valid count). -/
theorem aggregate_characterization (rs : List GameStat) :
    (aggregate rs = none ↔ rs = [] ∨ validCount rs = 0)
    ∧ ∀ a, aggregate rs = some a →
        a.pts = (seasonTotals rs).pts / validCount rs
        ∧ a.reb = (seasonTotals rs).reb / validCount rs
        ∧ a.ast = (seasonTotals rs).ast / validCount rs
        ∧ a.stl = (seasonTotals rs).stl / validCount rs
        ∧ a.blk = (seasonTotals rs).blk / validCount rs
        ∧ a.turnover = (seasonTotals rs).turnover / validCount rs
        ∧ a.fg_pct = (seasonTotals rs).fg_pct / validCount rs
        ∧ a.fg3_pct = (seasonTotals rs).fg3_pct / validCount rs
        ∧ a.ft_pct = (seasonTotals rs).ft_pct / validCount rs
        ∧ a.min = (seasonTotals rs).min / validCount rs
        ∧ a.games_played = rs.length := by
  constructor
  · constructor
    · intro h
      unfold aggregate at h
      split at h
      · next hE => exact Or.inl (List.isEmpty_iff.mp hE)
      · split at h
        · next hV => exact Or.inr hV
        · simp at h
    · intro h
      unfold aggregate
      by_cases hE : rs.isEmpty
      · simp [hE]
      · rcases h with h | h
        · exact absurd (List.isEmpty_iff.mpr h) (by simpa using hE)
        · simp [hE, h]
  · intro a ha
    unfold aggregate at ha
    split at ha
    · simp at ha
    · split at ha
      · simp at ha
      · have h := Option.some.inj ha
        subst h
        exact ⟨rfl, rfl, rfl, rfl, rfl, rfl, rfl, rfl, rfl, rfl, rfl⟩

/-- Witness for C2 at the one-record season `[gValid]`. -/
theorem aggregate_characterization_witness :
    aggregate [gValid] = some avgOfGValid
    ∧ avgOfGValid.pts = (seasonTotals [gValid]).pts / validCount [gValid]
    ∧ avgOfGValid.games_played = [gValid].length := by
  have h := (aggregate_characterization [gValid]).2 avgOfGValid aggregate_gValid_eval
  exact ⟨aggregate_gValid_eval, h.1, h.2.2.2.2.2.2.2.2.2.2⟩

/-! ### Claim theorems about growth values -/

/-- C3: the growth value of one metric is null when the prior season's value
for it is absent (defaulting to 0), null, or zero; otherwise it equals
`round(((curr - prev) / abs(prev)) * 100, 1)`. -/
theorem growth_value_rule (prev curr : List (String × PyVal)) (m : String) :
    (dictGet prev m = none → growthValueRaw prev curr m = some none)
    ∧ (dictGet prev m = some PyVal.vnull → growthValueRaw prev curr m = some none)
    ∧ (∀ p, dictGet prev m = some (PyVal.vnum p) → p = 0 →
        growthValueRaw prev curr m = some none)
    ∧ (∀ p c, dictGet prev m = some (PyVal.vnum p) → p ≠ 0 →
        dictGet curr m = some (PyVal.vnum c) →
        growthValueRaw prev curr m = some (some (pyRound1 ((c - p) / |p| * 100)))) := by
  refine ⟨?_, ?_, ?_, ?_⟩
  · intro h
    simp [growthValueRaw, h]
  · intro h
    simp [growthValueRaw, h]
  · intro p hp hp0
    subst hp0
    simp [growthValueRaw, hp]
  · intro p c hp hp0 hc
    simp [growthValueRaw, hp, hp0, hc]

/-- Witness for C3 at the spec's concrete inputs: prior 10 and current 15
give 50.0; a prior of zero, an absent prior, and a null prior give null. -/
theorem growth_value_rule_witness :
    growthValueRaw [("pts", PyVal.vnum 10)] [("pts", PyVal.vnum 15)] "pts"
      = some (some 50)
    ∧ growthValueRaw [("pts", PyVal.vnum 0)] [("pts", PyVal.vnum 15)] "pts" = some none
    ∧ growthValueRaw [] [("pts", PyVal.vnum 15)] "pts" = some none
    ∧ growthValueRaw [("pts", PyVal.vnull)] [("pts", PyVal.vnum 15)] "pts"
      = some none := by
  refine ⟨?_, ?_, ?_, ?_⟩
  · have h := (growth_value_rule [("pts", PyVal.vnum 10)] [("pts", PyVal.vnum 15)]
      "pts").2.2.2 10 15 rfl (by norm_num) rfl
    rw [h]
    have e : ((15 : ℚ) - 10) / |(10 : ℚ)| * 100 = 50 := by
      rw [abs_of_pos] <;> norm_num
    rw [e]
    norm_num [pyRound1]
  · exact (growth_value_rule [("pts", PyVal.vnum 0)] [("pts", PyVal.vnum 15)]
      "pts").2.2.1 0 rfl rfl
  · exact (growth_value_rule [] [("pts", PyVal.vnum 15)] "pts").1 rfl
  · exact (growth_value_rule [("pts", PyVal.vnull)] [("pts", PyVal.vnum 15)]
      "pts").2.1 rfl

/-! ### Claim theorem about get_player_seasons -/

/-- C9: the season list of a player is strictly increasing (hence sorted with
no duplicates) and contains exactly the distinct season values found in the
player's game records. -/
theorem seasons_sorted_distinct (data : List StatEntry) :
    (get_player_seasons data).Sorted (· < ·)
    ∧ ∀ s : Int, s ∈ get_player_seasons data ↔
        ∃ st, st ∈ data ∧ ∃ gi, st.game = some gi ∧ gi.season = some s := by
  constructor
  · exact Finset.sort_sorted_lt _
  · intro s
    simp only [get_player_seasons, Finset.mem_sort, List.mem_toFinset,
      List.mem_filterMap, Option.bind_eq_some]

/-! ### Lemmas about Python dict assignment -/

theorem dictGet_map_replace {κ α : Type} [DecidableEq κ] (k : κ) (v : α) :
    ∀ m : List (κ × α), ((m.find? (fun p => p.1 = k)).isSome) →
    dictGet (m.map (fun p => if p.1 = k then (k, v) else p)) k = some v := by
  intro m
  induction m with
  | nil => intro h; simp [List.find?] at h
  | cons p ps ih =>
      intro h
      by_cases hp : p.1 = k
      · simp [dictGet, List.find?, hp]
      · have h2 : (ps.find? (fun p => p.1 = k)).isSome := by
          simpa [List.find?, hp] using h
        simpa [dictGet, List.find?, hp] using ih h2

theorem dictGet_map_replace_ne {κ α : Type} [DecidableEq κ] (k k2 : κ) (v : α)
    (hkk : k2 ≠ k) :
    ∀ m : List (κ × α),
    dictGet (m.map (fun p => if p.1 = k then (k, v) else p)) k2 = dictGet m k2 := by
  intro m
  induction m with
  | nil => rfl
  | cons p ps ih =>
      simp only [List.map_cons]
      by_cases hp : p.1 = k
      · rw [if_pos hp]
        unfold dictGet at ih ⊢
        rw [List.find?_cons_of_neg _ (by simp; exact fun h => hkk h.symm),
          List.find?_cons_of_neg _ (by simp [hp]; exact fun h => hkk h.symm)]
        exact ih
      · rw [if_neg hp]
        by_cases hp2 : p.1 = k2
        · unfold dictGet
          rw [List.find?_cons_of_pos _ (by simp [hp2]),
            List.find?_cons_of_pos _ (by simp [hp2])]
        · unfold dictGet at ih ⊢
          rw [List.find?_cons_of_neg _ (by simp [hp2]),
            List.find?_cons_of_neg _ (by simp [hp2])]
          exact ih

theorem dictGet_append_single {κ α : Type} [DecidableEq κ] (k : κ) (v : α) :
    ∀ m : List (κ × α), (m.find? (fun p => p.1 = k)) = none →
    dictGet (m ++ [(k, v)]) k = some v := by
  intro m
  induction m with
  | nil => simp [dictGet, List.find?]
  | cons p ps ih =>
      intro h
      by_cases hp : p.1 = k
      · simp [List.find?, hp] at h
      · have h2 : (ps.find? (fun p => p.1 = k)) = none := by
          simpa [List.find?, hp] using h
        simpa [dictGet, List.find?, hp] using ih h2

theorem dictGet_append_single_ne {κ α : Type} [DecidableEq κ] (k k2 : κ) (v : α)
    (hkk : k2 ≠ k) :
    ∀ m : List (κ × α), dictGet (m ++ [(k, v)]) k2 = dictGet m k2 := by
  intro m
  induction m with
  | nil => simp [dictGet, List.find?, Ne.symm hkk, hkk]
  | cons p ps ih =>
      by_cases hp : p.1 = k2
      · simp [dictGet, List.find?, hp]
      · simpa [dictGet, List.find?, hp] using ih

/-- Looking up the key just assigned returns the assigned value. -/
theorem dictGet_insert_self {κ α : Type} [DecidableEq κ] (m : List (κ × α))
    (k : κ) (v : α) : dictGet (dictInsert m k v) k = some v := by
  unfold dictInsert
  split
  · next h => exact dictGet_map_replace k v m h
  · next h => exact dictGet_append_single k v m (Option.not_isSome_iff_eq_none.mp h)

/-- Assignment to one key leaves every other key's lookup unchanged. -/
theorem dictGet_insert_ne {κ α : Type} [DecidableEq κ] (m : List (κ × α))
    (k k2 : κ) (v : α) (h : k2 ≠ k) :
    dictGet (dictInsert m k v) k2 = dictGet m k2 := by
  unfold dictInsert
  split
  · exact dictGet_map_replace_ne k k2 v h m
  · exact dictGet_append_single_ne k k2 v h m

/-- Assignment grows a dict by at most one entry. -/
theorem dictInsert_length_le {κ α : Type} [DecidableEq κ] (m : List (κ × α))
    (k : κ) (v : α) : (dictInsert m k v).length ≤ m.length + 1 := by
  unfold dictInsert
  split
  · simp
  · simp

/-! ### Lemmas about the growth fold -/

theorem foldGrowth_length (avg : Int → Option Averages) :
    ∀ (pairs : List (Int × Int)) (acc : List (String × List (String × Option ℚ))),
    (pairs.foldl (growthStep avg) acc).length ≤ acc.length + pairs.length := by
  intro pairs
  induction pairs with
  | nil => intro acc; simp
  | cons pc ps ih =>
      intro acc
      have hstep : (growthStep avg acc pc).length ≤ acc.length + 1 := by
        unfold growthStep
        split
        · exact dictInsert_length_le _ _ _
        · omega
      calc (List.foldl (growthStep avg) (growthStep avg acc pc) ps).length
          ≤ (growthStep avg acc pc).length + ps.length := ih _
        _ ≤ acc.length + 1 + ps.length := by omega
        _ = acc.length + (pc :: ps).length := by simp; omega

theorem foldGrowth_step_isSome (avg : Int → Option Averages)
    (acc : List (String × List (String × Option ℚ))) (pc : Int × Int) (k : String) :
    (dictGet (growthStep avg acc pc) k).isSome ↔
      (dictGet acc k).isSome ∨
      ((avg pc.1).isSome ∧ (avg pc.2).isSome ∧ k = growthKey pc.1 pc.2) := by
  unfold growthStep
  rcases h1 : avg pc.1 with _ | p
  · simp [h1]
  · rcases h2 : avg pc.2 with _ | c
    · simp [h2]
    · by_cases hk : k = growthKey pc.1 pc.2
      · subst hk
        simp [dictGet_insert_self]
      · rw [dictGet_insert_ne _ _ _ _ hk]
        simp [hk]

theorem foldGrowth_get_isSome (avg : Int → Option Averages) :
    ∀ (pairs : List (Int × Int)) (acc : List (String × List (String × Option ℚ)))
      (k : String),
    (dictGet (pairs.foldl (growthStep avg) acc) k).isSome ↔
      (dictGet acc k).isSome ∨
      ∃ pc ∈ pairs, (avg pc.1).isSome ∧ (avg pc.2).isSome ∧ k = growthKey pc.1 pc.2 := by
  intro pairs
  induction pairs with
  | nil => intro acc k; simp
  | cons pc ps ih =>
      intro acc k
      simp only [List.foldl_cons]
      rw [ih, foldGrowth_step_isSome]
      simp only [List.exists_mem_cons_iff]
      tauto

theorem foldGrowth_get_some (avg : Int → Option Averages) :
    ∀ (pairs : List (Int × Int)) (acc : List (String × List (String × Option ℚ)))
      (k : String) (gv : List (String × Option ℚ)),
    dictGet (pairs.foldl (growthStep avg) acc) k = some gv →
      dictGet acc k = some gv ∨
      ∃ pc ∈ pairs, ∃ p c, avg pc.1 = some p ∧ avg pc.2 = some c ∧
        k = growthKey pc.1 pc.2 ∧ gv = seasonGrowthOf p c := by
  intro pairs
  induction pairs with
  | nil => intro acc k gv h; exact Or.inl h
  | cons pc ps ih =>
      intro acc k gv h
      simp only [List.foldl_cons] at h
      rcases ih _ k gv h with hstep | ⟨pc2, hmem, rest⟩
      · unfold growthStep at hstep
        rcases h1 : avg pc.1 with _ | p
        · rw [h1] at hstep
          exact Or.inl hstep
        · rw [h1] at hstep
          rcases h2 : avg pc.2 with _ | c
          · rw [h2] at hstep
            exact Or.inl hstep
          · rw [h2] at hstep
            by_cases hk : k = growthKey pc.1 pc.2
            · subst hk
              rw [dictGet_insert_self] at hstep
              refine Or.inr ⟨pc, List.mem_cons_self pc ps, p, c, h1, h2, rfl, ?_⟩
              exact (Option.some.inj hstep).symm
            · rw [dictGet_insert_ne _ _ _ _ hk] at hstep
              exact Or.inl hstep
      · exact Or.inr ⟨pc2, List.mem_cons_of_mem pc hmem, rest⟩

/-! ### Claim theorem about the growth mapping -/

/-- C4: the growth mapping has at most `len(seasons) - 1` entries; a key is
present exactly when it is `"{prev}-{curr}"` for a pair adjacent in the
caller-supplied list with both averages non-null; a present entry is the
per-metric growth of such a pair, and in it every metric whose prior value is
zero (or absent from the averages dict) maps to null. -/
theorem growth_map_shape (seasons : List Int) (avg : Int → Option Averages) :
    (buildGrowth seasons avg).length ≤ seasons.length - 1
    ∧ (∀ k, (dictGet (buildGrowth seasons avg) k).isSome ↔
        ∃ pc ∈ seasons.zip seasons.tail,
          (avg pc.1).isSome ∧ (avg pc.2).isSome ∧ k = growthKey pc.1 pc.2)
    ∧ (∀ k gv, dictGet (buildGrowth seasons avg) k = some gv →
        ∃ pc ∈ seasons.zip seasons.tail, ∃ p c,
          avg pc.1 = some p ∧ avg pc.2 = some c ∧
          k = growthKey pc.1 pc.2 ∧ gv = seasonGrowthOf p c)
    ∧ (∀ (p c : Averages) (m : String), m ∈ keyMetrics → avgGet p m = 0 →
        (m, none) ∈ seasonGrowthOf p c) := by
  refine ⟨?_, ?_, ?_, ?_⟩
  · have h := foldGrowth_length avg (seasons.zip seasons.tail) []
    have hz : (seasons.zip seasons.tail).length = min seasons.length seasons.tail.length :=
      List.length_zip ..
    have ht : seasons.tail.length = seasons.length - 1 := List.length_tail _
    calc (buildGrowth seasons avg).length
        ≤ (seasons.zip seasons.tail).length := by simpa [buildGrowth] using h
      _ ≤ seasons.length - 1 := by omega
  · intro k
    have h := foldGrowth_get_isSome avg (seasons.zip seasons.tail) [] k
    simpa [buildGrowth, dictGet] using h
  · intro k gv h
    have h2 := foldGrowth_get_some avg (seasons.zip seasons.tail) [] k gv h
    rcases h2 with h0 | h2
    · simp [dictGet] at h0
    · exact h2
  · intro p c m hm h0
    unfold seasonGrowthOf
    rw [List.mem_map]
    exact ⟨m, hm, by simp [growthEntry, h0]⟩

/-- Witness for C4: with seasons `[2021, 2022]` where only 2021 has averages,
the growth dict is within the size bound and the `2021-2022` key is absent;
and a metric with zero prior (here `reb`) maps to null in a present entry. -/
theorem growth_map_shape_witness :
    (buildGrowth [2021, 2022]
        (fun s => if s = 2021 then some avgOfGValid else none)).length ≤ 1
    ∧ ¬ (dictGet (buildGrowth [2021, 2022]
        (fun s => if s = 2021 then some avgOfGValid else none))
          (growthKey 2021 2022)).isSome
    ∧ ("reb", none) ∈ seasonGrowthOf avgOfGValid avgOfGValid := by
  have h := growth_map_shape [2021, 2022]
    (fun s => if s = 2021 then some avgOfGValid else none)
  refine ⟨by simpa using h.1, ?_, ?_⟩
  · rw [h.2.1 (growthKey 2021 2022)]
    rintro ⟨pc, hmem, -, hc2, -⟩
    simp only [List.zip_cons_cons, List.tail_cons, List.zip_nil_right,
      List.mem_singleton] at hmem
    subst hmem
    simp at hc2
  · refine h.2.2.2 avgOfGValid avgOfGValid "reb" (by decide) ?_
    simp [avgGet, Averages.lookup, avgOfGValid]

/-! ### Claim theorems about the comparison orchestrator -/

/-- C5: `compare_player_seasons` signals `InvalidParameter` when the player
id is not positive, the season list is empty, or some season lies outside
`[1946, current_year]`; and on such input the outcome does not depend on the
data source at all (no fetch influences the result). -/
theorem compare_validation_fails_fast {ε : Type} (A B : Adapter ε) (cy pid : Int)
    (seasons : List Int)
    (h : pid ≤ 0 ∨ seasons = [] ∨ ∃ s ∈ seasons, s < 1946 ∨ cy < s) :
    (∃ msg, compare A cy pid seasons = Except.error (CompareError.invalidParameter msg))
    ∧ compare A cy pid seasons = compare B cy pid seasons := by
  by_cases h1 : pid ≤ 0
  · exact ⟨⟨"Invalid player ID. Must be a positive integer.", by simp [compare, h1]⟩,
      by simp [compare, h1]⟩
  · by_cases h2 : seasons.isEmpty
    · exact ⟨⟨"Seasons must be a non-empty list of integers",
        by simp [compare, h1, h2]⟩, by simp [compare, h1, h2]⟩
    · have h3 : seasons.any (fun s => s < 1946 || cy < s) = true := by
        rcases h with h | h | ⟨s, hs, hlt⟩
        · exact absurd h h1
        · exact absurd (List.isEmpty_iff.mpr h) (by simpa using h2)
        · rw [List.any_eq_true]
          exact ⟨s, hs, by simpa using hlt⟩
      exact ⟨⟨"Invalid season. Must be between 1946 and the current year.",
        by simp [compare, h1, h2, h3]⟩, by simp [compare, h1, h2, h3]⟩

/-- Witness for C5: the empty season list and the out-of-range season 1900
are both rejected, identically under two different adapters. -/
theorem compare_validation_fails_fast_witness :
    (∃ msg, compare adapterEmpty 2025 7 ([] : List Int)
        = Except.error (CompareError.invalidParameter msg))
    ∧ compare adapterEmpty 2025 7 ([] : List Int)
        = compare adapterStatsFail 2025 7 ([] : List Int)
    ∧ (∃ msg, compare adapterEmpty 2025 7 [1900]
        = Except.error (CompareError.invalidParameter msg)) := by
  have h1 := compare_validation_fails_fast adapterEmpty adapterStatsFail 2025 7 []
    (Or.inr (Or.inl rfl))
  have h2 := compare_validation_fails_fast adapterEmpty adapterStatsFail 2025 7 [1900]
    (Or.inr (Or.inr ⟨1900, by simp, Or.inl (by norm_num)⟩))
  exact ⟨h1.1, h1.2, h2.1⟩

/-! ### Lemmas about the per-season fetch loop -/

theorem fetchSA_err {ε : Type} (A : Adapter ε) :
    ∀ (pre : List Int) (s : Int) (post : List Int)
      (acc : List (Int × Option Averages)) (e : ε),
    (∀ x ∈ pre, ∃ sts, A.getStats x = Except.ok sts) →
    A.getStats s = Except.error e →
    fetchSeasonAverages A acc (pre ++ s :: post) = Except.error e := by
  intro pre
  induction pre with
  | nil =>
      intro s post acc e _ he
      simp [fetchSeasonAverages, he]
  | cons x xs ih =>
      intro s post acc e hok he
      obtain ⟨sts, hx⟩ := hok x (List.mem_cons_self x xs)
      simp only [List.cons_append, fetchSeasonAverages, hx]
      exact ih s post _ e (fun y hy => hok y (List.mem_cons_of_mem x hy)) he

theorem fetchSA_ok_stats {ε : Type} (A : Adapter ε) :
    ∀ (l : List Int) (acc r : List (Int × Option Averages)),
    fetchSeasonAverages A acc l = Except.ok r →
    ∀ s ∈ l, ∃ sts, A.getStats s = Except.ok sts := by
  intro l
  induction l with
  | nil => intro acc r _ s hs; simp at hs
  | cons x xs ih =>
      intro acc r h s hs
      rcases hx : A.getStats x with e | sts
      · simp [fetchSeasonAverages, hx] at h
      · simp only [fetchSeasonAverages, hx] at h
        rcases List.mem_cons.mp hs with rfl | hs2
        · exact ⟨sts, hx⟩
        · exact ih _ r h s hs2

theorem fetchSA_ok_keys {ε : Type} (A : Adapter ε) :
    ∀ (l : List Int) (acc r : List (Int × Option Averages)),
    fetchSeasonAverages A acc l = Except.ok r →
    ∀ s : Int, ((dictGet acc s).isSome ∨ s ∈ l) → (dictGet r s).isSome := by
  intro l
  induction l with
  | nil =>
      intro acc r h s hs
      have hr : acc = r := by simpa [fetchSeasonAverages] using h
      subst hr
      rcases hs with hacc | hmem
      · exact hacc
      · simp at hmem
  | cons x xs ih =>
      intro acc r h s hs
      rcases hx : A.getStats x with e | sts
      · simp [fetchSeasonAverages, hx] at h
      · simp only [fetchSeasonAverages, hx] at h
        apply ih _ r h s
        rcases hs with hacc | hmem
        · left
          by_cases hxs : s = x
          · subst hxs
            rw [dictGet_insert_self]
            rfl
          · rw [dictGet_insert_ne _ _ _ _ hxs]
            exact hacc
        · rcases List.mem_cons.mp hmem with rfl | h2
          · left
            rw [dictGet_insert_self]
            rfl
          · right
            exact h2

theorem dictGet_map_toString (raw : List (Int × Option Averages)) (s : Int) :
    (dictGet raw s).isSome →
    (dictGet (raw.map (fun p => (toString p.1, p.2))) (toString s)).isSome := by
  induction raw with
  | nil => simp [dictGet]
  | cons p ps ih =>
      intro h
      simp only [List.map_cons]
      by_cases hts : toString p.1 = toString s
      · unfold dictGet
        rw [List.find?_cons_of_pos _ (by simp [hts])]
        rfl
      · have hps : p.1 ≠ s := fun he => hts (by rw [he])
        unfold dictGet at h ⊢
        rw [List.find?_cons_of_neg _ (by simp [hts])]
        rw [List.find?_cons_of_neg _ (by simp [hps])] at h
        exact ih h

/-- C7: under valid parameters, any adapter failure — fetching the player or
fetching any one season's stats (all earlier seasons having succeeded) —
propagates out of the comparison unchanged as that same upstream error; and a
successful comparison implies every fetch succeeded and every requested
season has an entry in `season_averages` (no partial result). -/
theorem compare_aborts_on_fetch_error {ε : Type} (A : Adapter ε) (cy pid : Int)
    (seasons : List Int) (hpid : 0 < pid) (hne : seasons ≠ [])
    (hrange : ∀ s ∈ seasons, 1946 ≤ s ∧ s ≤ cy) :
    (∀ e, A.getPlayer = Except.error e →
        compare A cy pid seasons = Except.error (CompareError.upstream e))
    ∧ (∀ (p : Player) (pre : List Int) (s : Int) (post : List Int) (e : ε),
        A.getPlayer = Except.ok p → seasons = pre ++ s :: post →
        (∀ x ∈ pre, ∃ sts, A.getStats x = Except.ok sts) →
        A.getStats s = Except.error e →
        compare A cy pid seasons = Except.error (CompareError.upstream e))
    ∧ (∀ r, compare A cy pid seasons = Except.ok r →
        (∃ p, A.getPlayer = Except.ok p)
        ∧ (∀ s ∈ seasons, ∃ sts, A.getStats s = Except.ok sts)
        ∧ ∀ s ∈ seasons, (dictGet r.season_averages (toString s)).isSome) := by
  have h1 : ¬ (pid ≤ 0) := by omega
  have h2 : ¬ (seasons.isEmpty = true) := fun hh => hne (List.isEmpty_iff.mp hh)
  have h3 : ¬ (seasons.any (fun s => s < 1946 || cy < s) = true) := by
    rw [List.any_eq_true]
    rintro ⟨s, hs, hcond⟩
    obtain ⟨ha, hb⟩ := hrange s hs
    simp only [Bool.or_eq_true, decide_eq_true_eq] at hcond
    omega
  refine ⟨?_, ?_, ?_⟩
  · intro e he
    simp [compare, h1, h2, h3, he]
  · intro p pre s post e hp hseq hok hs
    have hf := fetchSA_err A pre s post [] e hok hs
    subst hseq
    simp [compare, h1, h2, h3, hp, hf]
  · intro r hr
    simp only [compare, h1, h2, h3, if_false, if_neg] at hr
    rcases hp : A.getPlayer with e | p
    · rw [hp] at hr
      simp at hr
    · rw [hp] at hr
      rcases hf : fetchSeasonAverages A [] seasons with e | raw
      · rw [hf] at hr
        simp at hr
      · rw [hf] at hr
        have hr2 := Except.ok.inj hr
        refine ⟨⟨p, rfl⟩, fetchSA_ok_stats A seasons [] raw hf, ?_⟩
        intro s hs
        have hkey : (dictGet raw s).isSome :=
          fetchSA_ok_keys A seasons [] raw hf s (Or.inr hs)
        rw [← hr2]
        exact dictGet_map_toString raw s hkey

/-- Witness for C7: with an adapter whose stats fetch fails, comparing one
valid season aborts with that upstream error. -/
theorem compare_aborts_on_fetch_error_witness :
    compare adapterStatsFail 2025 7 [2000]
      = Except.error (CompareError.upstream ()) := by
  have h := compare_aborts_on_fetch_error adapterStatsFail 2025 7 [2000]
    (by norm_num) (by simp)
    (by intro s hs; simp only [List.mem_singleton] at hs; subst hs; omega)
  exact h.2.1 playerEx [] 2000 [] () rfl rfl (by intro x hx; simp at hx) rfl

end NbaApi
